import Mathlib

/-!
Shallow embedding of the indicator & signal engine of `v15.py`
(a streamlit stock-monitoring script) and proofs about it.

Modelling conventions:
* pandas float series are embedded as `List ℚ` (exact arithmetic standing in
  for IEEE floats; the script's numeric claims are structural, not about
  rounding);
* a pandas rolling-window result, which is `NaN` for the first `w-1` indices,
  is embedded as `List (Option ℚ)` with `none` for the undefined entries, and
  every comparison against such a value is `false` on `none`, matching the
  IEEE rule that any comparison with `NaN` is false;
* a Python exception is embedded as the `Except.error` branch of the result;
* the Telegram message strings produced by `generate_signals` are embedded by
  the structured record of the fields interpolated into the format string
  (kind of signal, close price, bar timestamp, stop loss, optional target);
  two messages of the script are equal strings exactly when these records
  render identically, and the per-symbol `sent_signals` membership test of the
  script compares those full strings.
-/

set_option autoImplicit false

namespace V15

/-- One OHLCV bar of the input frame (columns renamed by `get_stock_data` to
`open/high/low/close/volume`, indexed by `timestamp`). -/
structure Bar where
  timestamp : ℕ
  «open» : ℚ
  high : ℚ
  low : ℚ
  close : ℚ
  volume : ℚ
  deriving DecidableEq, Inhabited, Repr

/-- Tail of the recursive EMA: given the previous smoothed value `prev`,
produce the smoothed values for the remaining inputs.  This is pandas
`ewm(alpha, adjust=False).mean()` after its first element. -/
def emaStep (α : ℚ) : List ℚ → ℚ → List ℚ
  | [], _ => []
  | x :: xs, prev =>
    let e := α * x + (1 - α) * prev
    e :: emaStep α xs e

/-- Model of `calculate_ema(series, period)` of `v15.py`: `alpha = 2 / (period + 1)`,
then `series.ewm(alpha=alpha, adjust=False).mean()`, i.e. `ema[0] = x[0]` and
`ema[t] = alpha*x[t] + (1-alpha)*ema[t-1]`. -/
def calculate_ema (series : List ℚ) (period : ℕ) : List ℚ :=
  let α : ℚ := 2 / ((period : ℚ) + 1)
  match series with
  | [] => []
  | x :: rest => x :: emaStep α rest x

theorem emaStep_length (α : ℚ) (xs : List ℚ) (prev : ℚ) :
    (emaStep α xs prev).length = xs.length := by
  induction xs generalizing prev with
  | nil => rfl
  | cons x xs ih => simp [emaStep, ih]

theorem calculate_ema_length (series : List ℚ) (period : ℕ) :
    (calculate_ema series period).length = series.length := by
  cases series with
  | nil => rfl
  | cons x rest => simp [calculate_ema, emaStep_length]

theorem emaStep_getD_succ (α : ℚ) (xs : List ℚ) (prev : ℚ) (t : ℕ)
    (h : t + 1 < xs.length) :
    (emaStep α xs prev).getD (t + 1) 0 =
      α * xs.getD (t + 1) 0 + (1 - α) * (emaStep α xs prev).getD t 0 := by
  induction xs generalizing prev t with
  | nil => simp at h
  | cons x xs ih =>
    cases xs with
    | nil => simp at h
    | cons y ys =>
      cases t with
      | zero => simp [emaStep]
      | succ s =>
        have hs : s + 1 < (y :: ys).length := by
          simpa using Nat.lt_of_succ_lt_succ h
        simpa [emaStep] using ih (α * x + (1 - α) * prev) s hs

theorem emaStep_replicate (α : ℚ) (v : ℚ) (k : ℕ) :
    emaStep α (List.replicate k v) v = List.replicate k v := by
  induction k with
  | zero => rfl
  | succ n ih =>
    have hv : α * v + (1 - α) * v = v := by ring
    simp [List.replicate, emaStep, hv, ih]

/-- C8: EMA recursion correctness: for every period `p`, `ema[0] = x[0]`
(seeded from the first input value), `ema[t] = α·x[t] + (1-α)·ema[t-1]` with
`α = 2/(p+1)` for all `t ≥ 1`, and on a constant series of value `v` the EMA
is constantly `v`. -/
theorem ema_recursion_correct (p : ℕ) (xs : List ℚ) :
    (xs ≠ [] → (calculate_ema xs p).getD 0 0 = xs.getD 0 0) ∧
    (∀ t : ℕ, t + 1 < xs.length →
      (calculate_ema xs p).getD (t + 1) 0 =
        (2 / ((p : ℚ) + 1)) * xs.getD (t + 1) 0 +
          (1 - 2 / ((p : ℚ) + 1)) * (calculate_ema xs p).getD t 0) ∧
    (∀ (v : ℚ) (n : ℕ), calculate_ema (List.replicate n v) p = List.replicate n v) := by
  refine ⟨?_, ?_, ?_⟩
  · intro hne
    cases xs with
    | nil => exact absurd rfl hne
    | cons x rest => simp [calculate_ema]
  · intro t ht
    cases xs with
    | nil => simp at ht
    | cons x rest =>
      cases t with
      | zero =>
        cases rest with
        | nil => simp at ht
        | cons y ys => simp [calculate_ema, emaStep]
      | succ s =>
        have hs : s + 1 < rest.length := by simpa using Nat.lt_of_succ_lt_succ ht
        simpa [calculate_ema] using emaStep_getD_succ (2 / ((p : ℚ) + 1)) rest x s hs
  · intro v n
    cases n with
    | zero => rfl
    | succ m => simp [calculate_ema, List.replicate, emaStep_replicate]

/-- Witness for `ema_recursion_correct` at period 5 and a concrete series. -/
theorem ema_recursion_correct_witness :
    (calculate_ema [(3 : ℚ), 6, 9] 5).getD 0 0 = ([(3 : ℚ), 6, 9]).getD 0 0 ∧
    (calculate_ema [(3 : ℚ), 6, 9] 5).getD 1 0 =
      (2 / ((5 : ℚ) + 1)) * ([(3 : ℚ), 6, 9]).getD 1 0 +
        (1 - 2 / ((5 : ℚ) + 1)) * (calculate_ema [(3 : ℚ), 6, 9] 5).getD 0 0 ∧
    calculate_ema (List.replicate 4 (7 : ℚ)) 5 = List.replicate 4 (7 : ℚ) := by
  refine ⟨(ema_recursion_correct 5 [(3 : ℚ), 6, 9]).1 (by decide),
    (ema_recursion_correct 5 [(3 : ℚ), 6, 9]).2.1 0 (by decide),
    (ema_recursion_correct 5 [(3 : ℚ), 6, 9]).2.2 7 4⟩

/-- Model of `calculate_macd(close, fast=12, slow=26, signal=9)` of `v15.py`:
`macd_line = ema_fast - ema_slow` (pointwise on the aligned series),
`signal_line = calculate_ema(macd_line, 9)`, `histogram = macd_line -
signal_line`; returns `(macd_line, signal_line, histogram)`. -/
def calculate_macd (close : List ℚ) : List ℚ × List ℚ × List ℚ :=
  let ema_fast := calculate_ema close 12
  let ema_slow := calculate_ema close 26
  let macd_line := List.zipWith (fun a b => a - b) ema_fast ema_slow
  let signal_line := calculate_ema macd_line 9
  let histogram := List.zipWith (fun a b => a - b) macd_line signal_line
  (macd_line, signal_line, histogram)

theorem zipWith_sub_getD (a b : List ℚ) (t : ℕ)
    (ha : t < a.length) (hb : t < b.length) :
    (List.zipWith (fun x y => x - y) a b).getD t 0 = a.getD t 0 - b.getD t 0 := by
  have hz : t < (List.zipWith (fun x y : ℚ => x - y) a b).length := by
    simp [List.length_zipWith]; omega
  rw [List.getD_eq_getElem _ _ hz, List.getD_eq_getElem _ _ ha,
    List.getD_eq_getElem _ _ hb, List.getElem_zipWith]

theorem macd_line_length (close : List ℚ) :
    (calculate_macd close).1.length = close.length := by
  simp [calculate_macd, List.length_zipWith, calculate_ema_length]

/-- C9: MACD derivation: `macd_line[t] = ema(close,12)[t] - ema(close,26)[t]`,
`macd_signal` is the period-9 EMA of the macd line, and
`macd_hist[t] = macd_line[t] - macd_signal[t]` exactly. -/
theorem macd_derivation (close : List ℚ) (t : ℕ) (h : t < close.length) :
    (calculate_macd close).1.getD t 0 =
      (calculate_ema close 12).getD t 0 - (calculate_ema close 26).getD t 0 ∧
    (calculate_macd close).2.1 = calculate_ema (calculate_macd close).1 9 ∧
    (calculate_macd close).2.2.getD t 0 =
      (calculate_macd close).1.getD t 0 - (calculate_macd close).2.1.getD t 0 := by
  have h12 : t < (calculate_ema close 12).length := by rw [calculate_ema_length]; exact h
  have h26 : t < (calculate_ema close 26).length := by rw [calculate_ema_length]; exact h
  have hline : t < (calculate_macd close).1.length := by rw [macd_line_length]; exact h
  have hsig : t < (calculate_macd close).2.1.length := by
    show t < (calculate_ema _ 9).length
    rw [calculate_ema_length]; exact hline
  refine ⟨?_, rfl, ?_⟩
  · exact zipWith_sub_getD _ _ t h12 h26
  · exact zipWith_sub_getD _ _ t hline hsig

/-- Witness for `macd_derivation` on a concrete series at index 1. -/
theorem macd_derivation_witness :
    (calculate_macd [(1 : ℚ), 4, 2]).1.getD 1 0 =
      (calculate_ema [(1 : ℚ), 4, 2] 12).getD 1 0 -
        (calculate_ema [(1 : ℚ), 4, 2] 26).getD 1 0 ∧
    (calculate_macd [(1 : ℚ), 4, 2]).2.1 =
      calculate_ema (calculate_macd [(1 : ℚ), 4, 2]).1 9 ∧
    (calculate_macd [(1 : ℚ), 4, 2]).2.2.getD 1 0 =
      (calculate_macd [(1 : ℚ), 4, 2]).1.getD 1 0 -
        (calculate_macd [(1 : ℚ), 4, 2]).2.1.getD 1 0 :=
  macd_derivation [(1 : ℚ), 4, 2] 1 (by decide)

/-- Model of pandas `series.rolling(window=w).max()`: at index `j` the maximum of
the `w` entries `series[j+1-w .. j]` once `j+1 ≥ w`, and `NaN` (here `none`)
for the first `w-1` indices. -/
def rollingMax (w : ℕ) (xs : List ℚ) : List (Option ℚ) :=
  (List.range xs.length).map fun j =>
    if w ≤ j + 1 then ((xs.drop (j + 1 - w)).take w).max? else none

/-- Model of pandas `series.shift(1)`: prepend `NaN` (here `none`), drop the last
entry, keeping the length (the shift of an empty series is empty). -/
def shift1 (xs : List (Option ℚ)) : List (Option ℚ) :=
  match xs with
  | [] => []
  | _ :: _ => none :: xs.dropLast

/-- The `resistance` column of `calculate_indicators` in `v15.py`:
`df['high'].rolling(window=20).max().shift(1)`. -/
def resistance (high : List ℚ) : List (Option ℚ) :=
  shift1 (rollingMax 20 high)

theorem rollingMax_length (w : ℕ) (xs : List ℚ) :
    (rollingMax w xs).length = xs.length := by
  simp [rollingMax]

theorem rollingMax_getD (w : ℕ) (xs : List ℚ) (j : ℕ) (hj : j < xs.length) :
    (rollingMax w xs).getD j none =
      if w ≤ j + 1 then ((xs.drop (j + 1 - w)).take w).max? else none := by
  have hj' : j < (rollingMax w xs).length := by rw [rollingMax_length]; exact hj
  rw [List.getD_eq_getElem _ _ hj']
  simp only [rollingMax, List.getElem_map, List.getElem_range]

theorem resistance_length (high : List ℚ) :
    (resistance high).length = high.length := by
  have hlen := rollingMax_length 20 high
  cases h : rollingMax 20 high with
  | nil =>
    rw [h] at hlen
    simp [resistance, shift1, h, ← hlen]
  | cons a l =>
    rw [h] at hlen
    simp only [List.length_cons] at hlen
    simp [resistance, shift1, h]
    omega

theorem resistance_getD (high : List ℚ) (i : ℕ) (h20 : 20 ≤ i)
    (hi : i < high.length) :
    (resistance high).getD i none = ((high.drop (i - 20)).take 20).max? := by
  have h1 : 1 ≤ i := le_trans (by norm_num) h20
  have hnil : rollingMax 20 high ≠ [] := by
    intro hc
    have := rollingMax_length 20 high
    rw [hc] at this
    simp at this
    omega
  have hstep : (resistance high).getD i none =
      ((rollingMax 20 high).dropLast).getD (i - 1) none := by
    unfold resistance shift1
    cases hc : rollingMax 20 high with
    | nil => exact absurd hc hnil
    | cons a l =>
      rcases Nat.exists_eq_add_of_le h1 with ⟨k, hk⟩
      have hik : i = k + 1 := by omega
      rw [hik]
      simp
  rw [hstep]
  have hd : i - 1 < ((rollingMax 20 high).dropLast).length := by
    rw [List.length_dropLast, rollingMax_length]
    omega
  have hr : i - 1 < (rollingMax 20 high).length := by
    rw [rollingMax_length]; omega
  rw [List.getD_eq_getElem _ _ hd, List.getElem_dropLast,
    ← List.getD_eq_getElem _ none hr, rollingMax_getD 20 high (i - 1) (by omega)]
  have hsucc : i - 1 + 1 = i := by omega
  rw [if_pos (by omega : 20 ≤ i - 1 + 1), hsucc]

theorem window_agree (xs ys : List ℚ) (m k : ℕ)
    (hlen : ys.length = xs.length)
    (hagree : ∀ j, j < m + k → ys.getD j 0 = xs.getD j 0) :
    (ys.drop m).take k = (xs.drop m).take k := by
  apply List.ext_getElem
  · simp [hlen]
  · intro n h1 h2
    have hn1 : n < (ys.drop m).length := lt_of_lt_of_le h1 (by simp [List.length_take])
    have hn2 : n < (xs.drop m).length := lt_of_lt_of_le h2 (by simp [List.length_take])
    have hk1 : n < k := lt_of_lt_of_le h1 (by simp [List.length_take])
    rw [List.getElem_take, List.getElem_drop, List.getElem_take, List.getElem_drop]
    have hy : m + n < ys.length := by
      have := hn1; rw [List.length_drop] at this; omega
    have hx : m + n < xs.length := by
      have := hn2; rw [List.length_drop] at this; omega
    have := hagree (m + n) (by omega)
    rwa [List.getD_eq_getElem _ _ hy, List.getD_eq_getElem _ _ hx] at this

/-- C2: no-lookahead resistance: for every `i ≥ 20`, `resistance[i]` is the
trailing maximum of `high` over the window `[i-20, i-1]` (the 20 bars
strictly before `i`), and perturbing `high[i]` or any later entry (any series
of the same length agreeing with `high` strictly below `i`) never changes
`resistance[i]`. -/
theorem resistance_no_lookahead (high : List ℚ) (i : ℕ)
    (h20 : 20 ≤ i) (hi : i < high.length) :
    (resistance high).getD i none = ((high.drop (i - 20)).take 20).max? ∧
    ∀ high' : List ℚ, high'.length = high.length →
      (∀ j, j < i → high'.getD j 0 = high.getD j 0) →
      (resistance high').getD i none = (resistance high).getD i none := by
  refine ⟨resistance_getD high i h20 hi, ?_⟩
  intro high' hlen hagree
  have hi' : i < high'.length := by rw [hlen]; exact hi
  rw [resistance_getD high i h20 hi, resistance_getD high' i h20 hi']
  have hik : i - 20 + 20 = i := by omega
  rw [window_agree high high' (i - 20) 20 hlen (by rw [hik]; exact hagree)]

/-- A concrete 21-entry high series `0, 1, ..., 20`. -/
def highSample : List ℚ :=
  [0, 1, 2, 3, 4, 5, 6, 7, 8, 9, 10, 11, 12, 13, 14, 15, 16, 17, 18, 19, 20]

/-- Series `highSample` with its last entry (index 20) perturbed from 20 to 100. -/
def highPerturbed : List ℚ :=
  [0, 1, 2, 3, 4, 5, 6, 7, 8, 9, 10, 11, 12, 13, 14, 15, 16, 17, 18, 19, 100]

/-- Witness for `resistance_no_lookahead`: the 21-entry series `highSample`
at `i = 20`, with the last entry perturbed. -/
theorem resistance_no_lookahead_witness :
    (resistance highSample).getD 20 none =
      ((highSample.drop (20 - 20)).take 20).max? ∧
    (resistance highPerturbed).getD 20 none =
      (resistance highSample).getD 20 none := by
  have h := resistance_no_lookahead highSample 20 (by norm_num) (by decide)
  exact ⟨h.1, h.2 highPerturbed (by decide) (by decide)⟩

/-- Model of pandas `series.rolling(window=w).mean()`: at index `j` the simple mean
of the `w` entries `series[j+1-w .. j]` once `j+1 ≥ w`, and `NaN` (here
`none`) for the first `w-1` indices. -/
def rollingMean (w : ℕ) (xs : List ℚ) : List (Option ℚ) :=
  (List.range xs.length).map fun j =>
    if w ≤ j + 1 then some (((xs.drop (j + 1 - w)).take w).sum / (w : ℚ)) else none

theorem rollingMean_length (w : ℕ) (xs : List ℚ) :
    (rollingMean w xs).length = xs.length := by
  simp [rollingMean]

theorem rollingMean_getD (w : ℕ) (xs : List ℚ) (j : ℕ) (hj : j < xs.length) :
    (rollingMean w xs).getD j none =
      if w ≤ j + 1 then some (((xs.drop (j + 1 - w)).take w).sum / (w : ℚ))
      else none := by
  have hj' : j < (rollingMean w xs).length := by rw [rollingMean_length]; exact hj
  rw [List.getD_eq_getElem _ _ hj']
  simp only [rollingMean, List.getElem_map, List.getElem_range]

/-- The indicator columns that `calculate_indicators` adds to the frame:
three EMAs of `close`, the MACD triple, the rolling average volume and the
shifted rolling resistance. -/
structure Indicators where
  ema5 : List ℚ
  ema10 : List ℚ
  ema20 : List ℚ
  macd : List ℚ
  macd_signal : List ℚ
  macd_hist : List ℚ
  avg_volume : List (Option ℚ)
  resistance : List (Option ℚ)
  deriving DecidableEq, Repr

/-- The indicator columns computed by the body of `calculate_indicators`
(`v15.py` lines 53–62) from the bar frame. -/
def indicatorsOf (bars : List Bar) : Indicators :=
  let close := bars.map Bar.close
  let m := calculate_macd close
  { ema5 := calculate_ema close 5
    ema10 := calculate_ema close 10
    ema20 := calculate_ema close 20
    macd := m.1
    macd_signal := m.2.1
    macd_hist := m.2.2
    avg_volume := rollingMean 20 (bars.map Bar.volume)
    resistance := V15.resistance (bars.map Bar.high) }

/-- A data frame as it flows through the pipeline: either the raw frame as
returned by `get_stock_data` (possibly `None`), carrying no indicator
columns, or the enriched copy produced by `calculate_indicators`. -/
inductive Frame where
  | raw : Option (List Bar) → Frame
  | enriched : List Bar → Indicators → Frame
  deriving DecidableEq, Repr

/-- Model of `calculate_indicators(df)` of `v15.py`: `if df is None or len(df) < 50:
return df` — the argument is returned unchanged, with no indicator columns;
otherwise the indicator columns are added to `df.copy()`, leaving the input
frame unmodified. -/
def calculate_indicators (df : Option (List Bar)) : Frame :=
  match df with
  | none => Frame.raw none
  | some bars =>
    if bars.length < 50 then Frame.raw (some bars)
    else Frame.enriched bars (indicatorsOf bars)

/-- C10: a `None` frame or one with fewer than 50 bars passes through
`calculate_indicators` unchanged, with no indicator columns added and no
field modified; a frame with 50 or more bars is also left unmodified (the
enriched result carries the input bars unchanged, the indicators living in a
copy). -/
theorem calculate_indicators_frame_effect (df : Option (List Bar)) :
    ((df = none ∨ ∃ bars, df = some bars ∧ bars.length < 50) →
      calculate_indicators df = Frame.raw df) ∧
    (∀ bars, df = some bars → 50 ≤ bars.length →
      calculate_indicators df = Frame.enriched bars (indicatorsOf bars)) := by
  constructor
  · rintro (rfl | ⟨bars, rfl, hlt⟩)
    · rfl
    · simp [calculate_indicators, hlt]
  · rintro bars rfl hge
    simp [calculate_indicators, Nat.not_lt.mpr hge]

/-- A constant, well-formed bar. -/
def flatBar : Bar :=
  { timestamp := 0, «open» := 1, high := 1, low := 1, close := 1, volume := 1 }

/-- A 30-bar frame: long enough for signal evaluation (≥ 30) but below the
indicator warm-up threshold (< 50). -/
def bars30 : List Bar := List.replicate 30 flatBar

/-- A 50-bar frame: at the indicator warm-up threshold. -/
def bars50 : List Bar := List.replicate 50 flatBar

/-- Witness for `calculate_indicators_frame_effect` at a 30-bar and a 50-bar
frame. -/
theorem calculate_indicators_frame_effect_witness :
    calculate_indicators (some bars30) = Frame.raw (some bars30) ∧
    calculate_indicators (some bars50) = Frame.enriched bars50 (indicatorsOf bars50) :=
  ⟨(calculate_indicators_frame_effect (some bars30)).1
      (Or.inr ⟨bars30, rfl, by decide⟩),
   (calculate_indicators_frame_effect (some bars50)).2 bars50 rfl (by decide)⟩

/-- The four signal kinds produced by the `if/elif` chain of
`generate_signals`, in source order. -/
inductive SignalKind where
  | buyReversal
  | buyBreakout
  | sellReversal
  | sellBreakoutFailure
  deriving DecidableEq, Repr

/-- Position of each rule in the `if/elif` chain of `generate_signals`. -/
def prio : SignalKind → ℕ
  | .buyReversal => 0
  | .buyBreakout => 1
  | .sellReversal => 2
  | .sellBreakoutFailure => 3

theorem forallSignalKind (P : SignalKind → Prop) :
    (∀ k, P k) ↔
      P .buyReversal ∧ P .buyBreakout ∧ P .sellReversal ∧ P .sellBreakoutFailure := by
  constructor
  · intro h
    exact ⟨h _, h _, h _, h _⟩
  · rintro ⟨a, b, c, d⟩ k
    cases k <;> assumption

/-- The structured content of one signal message of `generate_signals`: the
fields interpolated into the f-string (the signal kind fixes the constant
text of the message).  Two messages of the script are equal strings exactly
when these records render identically. -/
structure Msg where
  kind : SignalKind
  price : ℚ
  time : ℕ
  stopLoss : ℚ
  target : Option ℚ
  deriving DecidableEq, Repr

/-- pandas `.min()` of a window (the windows used are never empty). -/
def minD : List ℚ → ℚ
  | [] => 0
  | x :: xs => xs.foldl min x

/-- pandas `.max()` of a window (the windows used are never empty). -/
def maxD : List ℚ → ℚ
  | [] => 0
  | x :: xs => xs.foldl max x

/-- The volume-surge test `vol > avg_vol * 1.2` of `generate_signals`:
`avg_vol` is `NaN` (`none`) for the first 19 bars and any comparison against
`NaN` is false. -/
def volSurge (vol : ℚ) (avg_vol : Option ℚ) : Bool :=
  match avg_vol with
  | none => false
  | some a => decide (vol > a * (12 / 10 : ℚ))

/-- The four rule conditions of the `if/elif` chain of `generate_signals`
(`v15.py` lines 87–106), read at row `i` (with `prev = i-1`) of the enriched
frame.  The chained Python comparisons `a > b > c` are the conjunctions of
the two comparisons, and comparisons against the possibly-`NaN` `resistance`
are false on `none`. -/
def ruleCond (bars : List Bar) (ind : Indicators) (i : ℕ) : SignalKind → Bool :=
  let row := bars.getD i default
  let prev_close := (bars.getD (i - 1) default).close
  let close := row.close
  let ema5 := ind.ema5.getD i 0
  let ema10 := ind.ema10.getD i 0
  let macd := ind.macd.getD i 0
  let macd_sig := ind.macd_signal.getD i 0
  let prev_macd_sig := ind.macd_signal.getD (i - 1) 0
  let vol := row.volume
  let avg_vol := ind.avg_volume.getD i none
  let res := ind.resistance.getD i none
  fun k =>
    match k with
    | .buyReversal =>
      decide (close > ema5) && decide (ema5 > ema10) &&
        decide (macd > macd_sig) && decide (macd_sig > prev_macd_sig) &&
        volSurge vol avg_vol
    | .buyBreakout =>
      (match res with
       | none => false
       | some r => decide (close > r) && decide (r > prev_close)) &&
        volSurge vol avg_vol && decide (macd > 0)
    | .sellReversal =>
      decide (close < ema5) && decide (ema5 < ema10) &&
        decide (macd < macd_sig) && decide (macd_sig < prev_macd_sig) &&
        volSurge vol avg_vol
    | .sellBreakoutFailure =>
      (match res with
       | none => false
       | some r => decide (close < r) && decide (r < prev_close)) &&
        decide (macd < 0)

/-- The body of the `for i in range(1, len(df))` loop of `generate_signals`:
the `if/elif` chain yields at most one signal message per row.  `recent_low`
embeds `df['low'].iloc[max(0, i-10):i+1].min()` (truncated subtraction
`i - 10` is `max(0, i-10)`), `recent_high` the matching `.max()`, and the
breakout target is `resistance * 1.02`. -/
def classifyBar (bars : List Bar) (ind : Indicators) (i : ℕ) : Option Msg :=
  let row := bars.getD i default
  let close := row.close
  let t := row.timestamp
  let recent_low := minD (((bars.map Bar.low).drop (i - 10)).take (i + 1 - (i - 10)))
  let recent_high := maxD (((bars.map Bar.high).drop (i - 10)).take (i + 1 - (i - 10)))
  if ruleCond bars ind i .buyReversal then
    some { kind := .buyReversal, price := close, time := t,
           stopLoss := recent_low * (98 / 100 : ℚ), target := none }
  else if ruleCond bars ind i .buyBreakout then
    some { kind := .buyBreakout, price := close, time := t,
           stopLoss := recent_low * (98 / 100 : ℚ),
           target := (ind.resistance.getD i none).map fun r => r * (102 / 100 : ℚ) }
  else if ruleCond bars ind i .sellReversal then
    some { kind := .sellReversal, price := close, time := t,
           stopLoss := recent_high * (102 / 100 : ℚ), target := none }
  else if ruleCond bars ind i .sellBreakoutFailure then
    some { kind := .sellBreakoutFailure, price := close, time := t,
           stopLoss := recent_high * (102 / 100 : ℚ), target := none }
  else none

/-- C5: mutual exclusivity by priority chain: at every bar index, the
`if/elif` chain emits at most one signal (the result is an `Option`), and it
emits kind `k` exactly when `k`'s condition holds and the condition of every
rule earlier in the chain fails — so a bar satisfying two rules emits only
the higher-priority one. -/
theorem priority_chain (bars : List Bar) (ind : Indicators) (i : ℕ)
    (k : SignalKind) :
    (classifyBar bars ind i).map Msg.kind = some k ↔
      (ruleCond bars ind i k = true ∧
        ∀ k', prio k' < prio k → ruleCond bars ind i k' = false) := by
  cases h1 : ruleCond bars ind i .buyReversal <;>
    cases h2 : ruleCond bars ind i .buyBreakout <;>
      cases h3 : ruleCond bars ind i .sellReversal <;>
        cases h4 : ruleCond bars ind i .sellBreakoutFailure <;>
          cases k <;>
            simp [classifyBar, h1, h2, h3, h4, forallSignalKind, prio]

/-- C7: stop-loss lookback formula: every buy signal emitted at index `i`
carries `stop_loss = 0.98 · min(low over bars [max(0, i-10), i])` — a window
of `min 11 (i+1)` bars, clamped when fewer than 11 bars exist — and every
sell signal carries `stop_loss = 1.02 · max(high over the same window)`. -/
theorem stop_loss_formula (bars : List Bar) (ind : Indicators) (i : ℕ) (m : Msg)
    (h : classifyBar bars ind i = some m) :
    ((m.kind = SignalKind.buyReversal ∨ m.kind = SignalKind.buyBreakout) →
      m.stopLoss =
        minD (((bars.map Bar.low).drop (i - 10)).take (min 11 (i + 1))) *
          (98 / 100 : ℚ)) ∧
    ((m.kind = SignalKind.sellReversal ∨ m.kind = SignalKind.sellBreakoutFailure) →
      m.stopLoss =
        maxD (((bars.map Bar.high).drop (i - 10)).take (min 11 (i + 1))) *
          (102 / 100 : ℚ)) := by
  have hwin : i + 1 - (i - 10) = min 11 (i + 1) := by omega
  rw [← hwin]
  unfold classifyBar at h
  repeat' split at h
  all_goals first
    | (injection h with h; subst h)
    | injection h
  all_goals refine ⟨?_, ?_⟩
  all_goals first
    | exact fun _ => rfl
    | (rintro (hk | hk) <;> exact SignalKind.noConfusion hk)

/-- A two-bar frame whose second bar fires BUY_REVERSAL under `indW`. -/
def barsW : List Bar :=
  [{ timestamp := 0, «open» := 5, high := 6, low := 5, close := 5, volume := 1 },
   { timestamp := 1, «open» := 9, high := 11, low := 4, close := 10, volume := 10 }]

/-- Hand-built indicator columns making bar 1 of `barsW` a BUY_REVERSAL. -/
def indW : Indicators :=
  { ema5 := [0, 9], ema10 := [0, 8], ema20 := [0, 7],
    macd := [0, 1], macd_signal := [-1, 0], macd_hist := [1, 1],
    avg_volume := [none, some 1], resistance := [none, none] }

/-- The message emitted at bar 1 of `barsW` under `indW`. -/
def msgW : Msg :=
  { kind := SignalKind.buyReversal, price := 10, time := 1,
    stopLoss := 4 * (98 / 100 : ℚ), target := none }

/-- Witness for `stop_loss_formula`: the BUY_REVERSAL at bar 1 of `barsW`. -/
theorem stop_loss_formula_witness :
    msgW.stopLoss =
      minD (((barsW.map Bar.low).drop (1 - 10)).take (min 11 (1 + 1))) *
        (98 / 100 : ℚ) :=
  (stop_loss_formula barsW indW 1 msgW (by with_unfolding_all rfl)).1 (Or.inl rfl)

theorem sum_zero_all_zero (l : List ℚ) (hnn : ∀ x ∈ l, 0 ≤ x) (hs : l.sum = 0) :
    ∀ x ∈ l, x = 0 := by
  induction l with
  | nil => simp
  | cons a l ih =>
    have ha : 0 ≤ a := hnn a (List.mem_cons_self a l)
    have hl : ∀ x ∈ l, 0 ≤ x := fun x hx => hnn x (List.mem_cons_of_mem a hx)
    have hsl : 0 ≤ l.sum := List.sum_nonneg hl
    rw [List.sum_cons] at hs
    have ha0 : a = 0 := by linarith
    have hl0 : l.sum = 0 := by linarith
    intro x hx
    rcases List.mem_cons.mp hx with rfl | hx'
    · exact ha0
    · exact ih hl hl0 x hx'

/-- C6: zero-or-undefined `avg_volume` gating: with nonnegative volumes (the
data-model contract), whenever `avg_volume` at bar `i` is undefined (`NaN`,
the first 19 bars) or zero, the volume-ratio test `vol > avg_vol * 1.2` is
false, and no rule that includes it (BUY_REVERSAL, BUY_BREAKOUT,
SELL_REVERSAL) fires at that bar; the comparison is a multiplication, so no
division by zero can occur and nothing is raised. -/
theorem avg_volume_gating (bars : List Bar) (i : ℕ)
    (hvol : ∀ b ∈ bars, 0 ≤ b.volume)
    (havg : (indicatorsOf bars).avg_volume.getD i none = none ∨
            (indicatorsOf bars).avg_volume.getD i none = some 0) :
    volSurge (bars.getD i default).volume
        ((indicatorsOf bars).avg_volume.getD i none) = false ∧
    ∀ m, classifyBar bars (indicatorsOf bars) i = some m →
      m.kind = SignalKind.sellBreakoutFailure := by
  have hA : (indicatorsOf bars).avg_volume = rollingMean 20 (bars.map Bar.volume) := rfl
  have hfalse : volSurge (bars.getD i default).volume
      ((indicatorsOf bars).avg_volume.getD i none) = false := by
    rcases havg with havg | havg
    · rw [havg]
      rfl
    · -- the rolling mean over 20 nonnegative volumes is 0, so every entry of
      -- the window, in particular the current bar's volume, is 0
      rw [havg]
      rw [hA] at havg
      have hi : i < (bars.map Bar.volume).length := by
        by_contra hge
        push_neg at hge
        rw [List.getD_eq_default] at havg
        · exact Option.noConfusion havg
        · rw [rollingMean_length]; omega
      rw [rollingMean_getD 20 _ i hi] at havg
      by_cases h20 : 20 ≤ i + 1
      · rw [if_pos h20] at havg
        have hsum : (((bars.map Bar.volume).drop (i + 1 - 20)).take 20).sum = 0 := by
          rcases div_eq_zero_iff.mp (Option.some.inj havg) with hs | hbad
          · exact hs
          · norm_num at hbad
        have hnnw : ∀ x ∈ ((bars.map Bar.volume).drop (i + 1 - 20)).take 20, 0 ≤ x := by
          intro x hx
          have hx2 : x ∈ bars.map Bar.volume :=
            List.mem_of_mem_drop (List.mem_of_mem_take hx)
          rcases List.mem_map.mp hx2 with ⟨b, hb, rfl⟩
          exact hvol b hb
        have hall := sum_zero_all_zero _ hnnw hsum
        have h19 : 19 < (((bars.map Bar.volume).drop (i + 1 - 20)).take 20).length := by
          rw [List.length_take, List.length_drop]
          omega
        have hwin19 : (((bars.map Bar.volume).drop (i + 1 - 20)).take 20)[19] =
            (bars.map Bar.volume)[i] := by
          rw [List.getElem_take, List.getElem_drop]
          congr 1
          omega
        have hv0 : (bars.map Bar.volume)[i] = 0 := by
          rw [← hwin19]
          exact hall _ (List.getElem_mem h19)
        have hib : i < bars.length := by simpa using hi
        have hbar : (bars.getD i default).volume = 0 := by
          rw [List.getD_eq_getElem _ _ hib]
          rw [List.getElem_map] at hv0
          exact hv0
        rw [hbar]
        with_unfolding_all rfl
      · rw [if_neg h20] at havg
        exact Option.noConfusion havg
  have hfalse2 : volSurge (bars[i]?.getD default).volume
      ((indicatorsOf bars).avg_volume[i]?.getD none) = false := by
    simpa using hfalse
  have hc1 : ruleCond bars (indicatorsOf bars) i SignalKind.buyReversal = false := by
    simp [ruleCond, hfalse2]
  have hc2 : ruleCond bars (indicatorsOf bars) i SignalKind.buyBreakout = false := by
    simp [ruleCond, hfalse2]
  have hc3 : ruleCond bars (indicatorsOf bars) i SignalKind.sellReversal = false := by
    simp [ruleCond, hfalse2]
  refine ⟨hfalse, ?_⟩
  intro m hm
  simp only [classifyBar, hc1, hc2, hc3, Bool.false_eq_true, if_false] at hm
  split at hm
  · injection hm with hm
    subst hm
    rfl
  · exact Option.noConfusion hm

/-- Witness for `avg_volume_gating`: a flat 50-bar frame at bar 5, where
`avg_volume` is still undefined. -/
theorem avg_volume_gating_witness :
    volSurge (bars50.getD 5 default).volume
      ((indicatorsOf bars50).avg_volume.getD 5 none) = false :=
  (avg_volume_gating bars50 5
    (of_decide_eq_true (by with_unfolding_all rfl))
    (Or.inl (by with_unfolding_all rfl))).1

/-- A Python exception escaping a function of the script. -/
inductive PyExn where
  | keyError
  deriving DecidableEq, Repr

/-- Model of Python `signals[-5:]`: the last (at most) five entries. -/
def lastN (n : ℕ) (l : List Msg) : List Msg :=
  l.drop (l.length - n)

/-- The scan `for i in range(1, len(df))` of `generate_signals` on an
enriched frame, collecting the signal of each row. -/
def scanSignals (bars : List Bar) (ind : Indicators) : List Msg :=
  ((List.range bars.length).drop 1).filterMap (classifyBar bars ind)

/-- Model of `generate_signals(df)` of `v15.py`.  `df is None or len(df) < 30` yields
`[]`.  A frame without indicator columns — which is exactly what
`calculate_indicators` returns for fewer than 50 bars — with at least 30 rows
reaches `row['EMA5']` in the first loop iteration and raises `KeyError`; an
enriched frame is scanned row by row through the `if/elif` chain and the last
five signals are kept. -/
def generate_signals (df : Frame) : Except PyExn (List Msg) :=
  match df with
  | .raw none => .ok []
  | .raw (some bars) =>
    if bars.length < 30 then .ok [] else .error .keyError
  | .enriched bars ind =>
    if bars.length < 30 then .ok [] else .ok (lastN 5 (scanSignals bars ind))

/-- C3 (code bug): a well-formed frame of 30 bars — enough for signal
evaluation (≥ 30) but below the indicator warm-up threshold (< 50) — passes
`calculate_indicators` unchanged and then raises `KeyError` inside
`generate_signals` when `row['EMA5']` is read, instead of yielding an empty
event sequence as the spec requires. -/
theorem classifier_keyerror_at_30_bars :
    generate_signals (calculate_indicators (some bars30)) =
      Except.error PyExn.keyError := by
  rfl

/-- A dispatched or recorded notification: the instrument symbol (an opaque
identifier standing for the symbol string) paired with the structured content
of the rendered message; the script's `full_sig` string determines and is
determined by this pair. -/
def FullSig : Type := ℕ × Msg

instance : DecidableEq FullSig := by
  unfold FullSig
  infer_instance

/-- One pass of the notification loop of `v15.py` (lines 196–206) over the
signals of one evaluation cycle for one instrument: for each signal, when its
full message is not in the per-symbol `sent_signals` list and the Telegram
tokens are configured, the message is dispatched (`send_telegram_message` is
called); only on a successful send is it appended to `sent_signals`, a failed
send being reported to the UI and leaving the list unchanged.  Returns the
new `sent_signals` list and the dispatched messages, in order. -/
def processCycle (symbol : ℕ) (sent : List FullSig) (sigs : List Msg)
    (tokens : Bool) (sendOk : FullSig → Bool) : List FullSig × List FullSig :=
  match sigs with
  | [] => (sent, [])
  | sig :: rest =>
    let full : FullSig := (symbol, sig)
    if full ∈ sent then
      processCycle symbol sent rest tokens sendOk
    else if tokens then
      if sendOk full then
        let r := processCycle symbol (sent ++ [full]) rest tokens sendOk
        (r.1, full :: r.2)
      else
        let r := processCycle symbol sent rest tokens sendOk
        (r.1, full :: r.2)
    else
      processCycle symbol sent rest tokens sendOk

/-- Repeated evaluation cycles of the polling loop: each cycle runs the
notification loop on that cycle's signal list, threading the per-symbol
`sent_signals` state; returns the final state and all dispatched messages. -/
def runCycles (symbol : ℕ) (sent : List FullSig) (cycles : List (List Msg))
    (tokens : Bool) (sendOk : FullSig → Bool) : List FullSig × List FullSig :=
  match cycles with
  | [] => (sent, [])
  | sigs :: rest =>
    let r := processCycle symbol sent sigs tokens sendOk
    let r2 := runCycles symbol r.1 rest tokens sendOk
    (r2.1, r.2 ++ r2.2)

/-- The DedupKey of the spec: (instrument, bar timestamp, signal kind). -/
def dedupKey (f : FullSig) : ℕ × ℕ × SignalKind :=
  (f.1, f.2.time, f.2.kind)

/-- How many dispatched notifications carry a given DedupKey. -/
def countKey (k : ℕ × ℕ × SignalKind) (l : List FullSig) : ℕ :=
  (l.filter fun f => decide (dedupKey f = k)).length

/-- How many dispatched notifications equal a given full message. -/
def countMsg (f : FullSig) (l : List FullSig) : ℕ :=
  (l.filter fun g => decide (g = f)).length

/-- A first poll of an open bar with timestamp 25: BUY_REVERSAL at close
100. -/
def msgPoll1 : Msg :=
  { kind := SignalKind.buyReversal, price := 100, time := 25,
    stopLoss := 95, target := none }

/-- A later poll of the same open bar (timestamp 25, same kind): the close
moved to 101, so the rendered message differs from `msgPoll1`. -/
def msgPoll2 : Msg :=
  { kind := SignalKind.buyReversal, price := 101, time := 25,
    stopLoss := 95, target := none }

/-- C1 (counterexample): two polls of the same open bar (timestamp 25, kind
BUY_REVERSAL) whose close moved from 100 to 101 render different message
strings; the string-membership dedup of `v15.py` dispatches both even though
every delivery succeeds, so the DedupKey (instrument 7, bar 25, BUY_REVERSAL)
is dispatched twice — not at most once as claimed. -/
theorem dedup_key_dispatched_twice :
    countKey (7, 25, SignalKind.buyReversal)
      (runCycles 7 [] [[msgPoll1], [msgPoll2]] true fun _ => true).2 = 2 := by
  with_unfolding_all rfl

theorem runCycles_nil (symbol : ℕ) (sent : List FullSig) (tokens : Bool)
    (sendOk : FullSig → Bool) :
    runCycles symbol sent [] tokens sendOk = (sent, []) := rfl

theorem runCycles_cons (symbol : ℕ) (sent : List FullSig) (sigs : List Msg)
    (rest : List (List Msg)) (tokens : Bool) (sendOk : FullSig → Bool) :
    runCycles symbol sent (sigs :: rest) tokens sendOk =
      ((runCycles symbol (processCycle symbol sent sigs tokens sendOk).1
          rest tokens sendOk).1,
        (processCycle symbol sent sigs tokens sendOk).2 ++
          (runCycles symbol (processCycle symbol sent sigs tokens sendOk).1
            rest tokens sendOk).2) := rfl

theorem processCycle_seen (symbol : ℕ) (m : Msg) (sent : List FullSig)
    (tokens : Bool) (sendOk : FullSig → Bool) (h : (symbol, m) ∈ sent) :
    processCycle symbol sent [m] tokens sendOk = (sent, []) := by
  simp [processCycle, h]

theorem runCycles_seen (symbol : ℕ) (m : Msg) (sent : List FullSig)
    (tokens : Bool) (sendOk : FullSig → Bool) (n : ℕ)
    (h : (symbol, m) ∈ sent) :
    runCycles symbol sent (List.replicate n [m]) tokens sendOk = (sent, []) := by
  induction n with
  | zero => rfl
  | succ k ih =>
    rw [List.replicate_succ]
    unfold runCycles
    rw [processCycle_seen symbol m sent tokens sendOk h]
    simp [ih]

/-- C1 (amended): the dedup key of `v15.py` is the full rendered message
(symbol and interpolated fields), not the (instrument, timestamp, kind)
triple.  When the same qualifying bar is re-evaluated over `n ≥ 1` polling
cycles producing the identical message each time, the Telegram tokens are
configured and every delivery succeeds, the message is dispatched exactly
once: the first cycle sends it and records it in `sent_signals`, and the
remaining `n - 1` repeats are suppressed. -/
theorem dedup_exactly_once (symbol : ℕ) (m : Msg) (n : ℕ) (hn : 1 ≤ n) :
    countMsg (symbol, m)
      (runCycles symbol [] (List.replicate n [m]) true fun _ => true).2 = 1 := by
  rcases Nat.exists_eq_add_of_le hn with ⟨k, hk⟩
  subst hk
  have h1 : processCycle symbol [] [m] true (fun _ => true) =
      ([(symbol, m)], [(symbol, m)]) := by
    simp [processCycle]
  have h2 := runCycles_seen symbol m [(symbol, m)] true (fun _ => true) k (by simp)
  rw [Nat.add_comm, List.replicate_succ, runCycles_cons, h1]
  simp [h2, countMsg]

/-- Witness for `dedup_exactly_once`: three polls of the same message. -/
theorem dedup_exactly_once_witness :
    countMsg (7, msgPoll1)
      (runCycles 7 [] (List.replicate 3 [msgPoll1]) true fun _ => true).2 = 1 :=
  dedup_exactly_once 7 msgPoll1 3 (by norm_num)

/-- C4 (counterexample): when delivery fails for the one accepted event of
the first cycle, the key is NOT recorded in `sent_signals` (the claim says
the event remains marked accepted), and the second evaluation cycle
dispatches the very same message again (the claim says no re-send on the next
cycle). -/
theorem delivery_failure_not_marked :
    (processCycle 7 [] [msgPoll1] true fun _ => false).1 = [] ∧
    countMsg (7, msgPoll1)
      (runCycles 7 [] [[msgPoll1], [msgPoll1]] true fun _ => false).2 = 2 := by
  constructor
  · with_unfolding_all rfl
  · with_unfolding_all rfl

/-- C4 (amended): when notification delivery fails for an event whose message
is not yet recorded, the failure is surfaced (the dispatch happened and
returned failure) but the event is NOT marked as accepted: `sent_signals` is
unchanged, and the same notification is dispatched again on the next
evaluation cycle. -/
theorem delivery_failure_requeues (symbol : ℕ) (m : Msg) (sent : List FullSig)
    (sendOk : FullSig → Bool)
    (hmem : (symbol, m) ∉ sent) (hfail : sendOk (symbol, m) = false) :
    processCycle symbol sent [m] true sendOk = (sent, [(symbol, m)]) ∧
    countMsg (symbol, m)
      (runCycles symbol sent [[m], [m]] true sendOk).2 = 2 := by
  have h1 : processCycle symbol sent [m] true sendOk = (sent, [(symbol, m)]) := by
    simp [processCycle, hmem, hfail]
  refine ⟨h1, ?_⟩
  simp only [runCycles_cons, runCycles_nil, h1]
  simp [countMsg]

/-- Witness for `delivery_failure_requeues` at a concrete symbol/message. -/
theorem delivery_failure_requeues_witness :
    processCycle 8 [] [msgPoll2] true (fun _ => false) = ([], [(8, msgPoll2)]) ∧
    countMsg (8, msgPoll2)
      (runCycles 8 [] [[msgPoll2], [msgPoll2]] true fun _ => false).2 = 2 :=
  delivery_failure_requeues 8 msgPoll2 [] (fun _ => false) (by simp) rfl

end V15
